import Mathlib

/-!
# Verification of the calorie-tracker core (src/app/page.tsx)

Shallow embedding of the portion-rescaling engine, nutrient aggregation and
meal store of the single-page calorie tracker.  JS `number` values are
modelled as rationals (`ℚ`); JS objects become structures; optional / possibly
absent fields become `Option`; the React state triple
(`loggedMeals`, `dailyTotals`, `error`) becomes an explicit `AppState` record;
event handlers become state-transition functions.  Handlers that would throw a
`TypeError` on an out-of-range index access return `none`; all other paths
return `some` of the next state (a silent no-op returns the state unchanged).
Display-only fields that the logic never reads (`selectedPortion`, the
loading/progress state) are omitted.
-/

namespace CalorieTracker

/-- JS `Math.round x` is `⌊x + 1/2⌋`: round to the nearest integer with ties
going toward `+∞` (written with the executable `Rat.floor`). -/
def jsRound (x : ℚ) : ℤ := (x + 1 / 2).floor

/-- The `Nutrients` record of page.tsx: calories, protein, carbs, fat. -/
structure Nutrients where
  calories : ℚ
  protein : ℚ
  carbs : ℚ
  fat : ℚ
  deriving DecidableEq, Repr

/-- A `FoodMeasure` of page.tsx; only the two gram-weight fields are read by
the rescaling logic (both optional, `gram_weight` being the alternate
spelling). The display-only `label`, `portionDescription` and `unit` fields
are carried as optional strings. -/
structure FoodMeasure where
  label : Option String
  portionDescription : Option String
  unitName : Option String
  gramWeight : Option ℚ
  gram_weight : Option ℚ
  deriving DecidableEq, Repr

/-- The `AiSelectedPortion` record of page.tsx. -/
structure AiSelectedPortion where
  gramWeight : ℚ
  portionDescription : String
  reasoning : Option String
  deriving DecidableEq, Repr

/-- The `Ingredient` record of page.tsx. `originalNutrients` is the optional
one-time snapshot taken on the first rescale. -/
structure Ingredient where
  name : String
  brand : String
  serving_info : String
  nutrients : Nutrients
  originalNutrients : Option Nutrients
  foodMeasures : List FoodMeasure
  ai_selected_portion : Option AiSelectedPortion
  deriving DecidableEq, Repr

/-- The `Meal` record of page.tsx. -/
structure Meal where
  meal_name : String
  meal_size : Option String
  ingredients : List Ingredient
  total_nutrients : Nutrients
  deriving DecidableEq, Repr

/-- The parsed `ApiResponse` of page.tsx.  The two fields are `Option` because
the validation `!data.dailyTotals || !data.loggedMeals` checks for their
absence. -/
structure ApiResponse where
  dailyTotals : Option Nutrients
  loggedMeals : Option (List Meal)
  deriving DecidableEq, Repr

/-- The React state read and written by the core handlers: the logged-meal
list, the running daily totals and the current error message. -/
structure AppState where
  loggedMeals : List Meal
  dailyTotals : Nutrients
  error : String
  deriving DecidableEq, Repr

/-- The initial React state: no meals, all-zero daily totals, no error. -/
def initialState : AppState :=
  { loggedMeals := [], dailyTotals := ⟨0, 0, 0, 0⟩, error := "" }

/-- Value of a captured digit run: `parseFloat` applied to a match of `(\d+)`
is its natural-number value. -/
def digitsToNat (ds : List Char) : Nat :=
  ds.foldl (fun a c => 10 * a + (c.toNat - Char.toNat '0')) 0

/-- One attempt of the regex `(\d+)g` at the current position: take the
maximal digit run starting here, then require a literal `'g'`.  Regex
backtracking to a shorter digit prefix can never succeed, because the
character after any proper prefix of a digit run is itself a digit and so is
never `'g'`; trying only the maximal run is therefore exact. -/
def tryGramMatchAt (l : List Char) : Option Nat :=
  let ds := l.takeWhile Char.isDigit
  if ds.isEmpty then none
  else
    match l.drop ds.length with
    | 'g' :: _ => some (digitsToNat ds)
    | _ => none

/-- `servingInfo.match(/(\d+)g/)` (page.tsx line 236): scan the characters
left to right and return the value of the first digit run that is immediately
followed by the letter `'g'`, or `none` when there is no match. -/
def gramMatch : List Char → Option Nat
  | [] => none
  | c :: rest =>
    match tryGramMatchAt (c :: rest) with
    | some n => some n
    | none => gramMatch rest

/-- Lines 235-239 of page.tsx: the gram weight extracted from `serving_info`,
or `0` when the regex does not match (the handler initialises
`originalGramWeight = 0` and only overwrites it on a match). -/
def extractServingGrams (serving_info : String) : ℚ :=
  match gramMatch serving_info.data with
  | some n => (n : ℚ)
  | none => 0

/-- JS `a || b` on an optional number: the left value when it is present and
non-zero (truthy), otherwise the right value. -/
def jsOrNum (a : Option ℚ) (b : ℚ) : ℚ :=
  match a with
  | some x => if x = 0 then b else x
  | none => b

/-- Lines 230-244 of page.tsx: resolve the reference gram weight of an
ingredient.  Priority: `ai_selected_portion.gramWeight` when present and
truthy (non-zero); else the first "digits then g" match in `serving_info`;
and when the result so far is exactly `0`, fall back to
`foodMeasures[0].gramWeight || foodMeasures[0].gram_weight || 0`. -/
def resolveReferenceGramWeight (ing : Ingredient) : ℚ :=
  let fromAiOrServing : ℚ :=
    match ing.ai_selected_portion with
    | some p =>
      if p.gramWeight = 0 then extractServingGrams ing.serving_info else p.gramWeight
    | none => extractServingGrams ing.serving_info
  if fromAiOrServing = 0 then
    match ing.foodMeasures with
    | [] => 0
    | m :: _ => jsOrNum m.gramWeight (jsOrNum m.gram_weight 0)
  else fromAiOrServing

/-- Lines 253-258 of page.tsx: the freshly scaled nutrient record.  Calories
are rounded to the nearest integer; protein, carbs and fat are rounded to the
nearest tenth (`Math.round (v * 10) / 10`). -/
def rescaledNutrients (orig : Nutrients) (multiplier : ℚ) : Nutrients :=
  { calories := (jsRound (orig.calories * multiplier) : ℚ)
    protein := (jsRound (orig.protein * multiplier * 10) : ℚ) / 10
    carbs := (jsRound (orig.carbs * multiplier * 10) : ℚ) / 10
    fat := (jsRound (orig.fat * multiplier * 10) : ℚ) / 10 }

/-- The all-zero nutrient vector `{calories: 0, protein: 0, carbs: 0, fat: 0}`. -/
def zeroNutrients : Nutrients := ⟨0, 0, 0, 0⟩

/-- Element-wise addition of nutrient vectors (one `+=` step of the
aggregation loops). -/
def addNutrients (a b : Nutrients) : Nutrients :=
  ⟨a.calories + b.calories, a.protein + b.protein, a.carbs + b.carbs, a.fat + b.fat⟩

/-- The loop of `recalculateMealTotals` (lines 184-191): element-wise sum of
the ingredients' current nutrients, starting from the all-zero vector. -/
def sumIngredients (ingredients : List Ingredient) : Nutrients :=
  ingredients.foldl (fun t i => addNutrients t i.nutrients) zeroNutrients

/-- The loop of `recalculateDailyTotals` (lines 108-116): element-wise sum of
the meals' `total_nutrients`, starting from the all-zero vector. -/
def recalculateDailyTotals (meals : List Meal) : Nutrients :=
  meals.foldl (fun t m => addNutrients t m.total_nutrients) zeroNutrients

/-- `recalculateMealTotals` (lines 182-195): overwrite the addressed meal's
`total_nutrients` with the sum of its ingredients' current nutrients. -/
def recalculateMealTotals (mealIndex : Nat) (meals : List Meal) : List Meal :=
  match meals.get? mealIndex with
  | none => meals
  | some meal =>
    meals.set mealIndex { meal with total_nutrients := sumIngredients meal.ingredients }

/-- The message of the `throw` on line 156 of page.tsx. -/
def invalidResponseMessage : String := "Invalid response format from AI. Please try again."

/-- `logFood` (lines 153-161), from the point where the fetch has succeeded
and the body parsed: when either `dailyTotals` or `loggedMeals` is absent the
handler throws, the catch block stores the message, and no meal mutation
happens; otherwise the new meals are appended to the existing list and the
daily totals are recomputed locally from the full accumulated list (the
service's `dailyTotals` value itself is never stored). -/
def logFood (s : AppState) (data : ApiResponse) : AppState :=
  match data.dailyTotals, data.loggedMeals with
  | some _, some batch =>
    let newMeals := s.loggedMeals ++ batch
    { loggedMeals := newMeals
      dailyTotals := recalculateDailyTotals newMeals
      error := "" }
  | _, _ => { s with error := invalidResponseMessage }

/-- `removeMeal` (lines 176-180): keep every meal whose position differs from
`index` (a positional `filter`, as in the source), then recompute the daily
totals from the remaining meals. -/
def removeMeal (s : AppState) (index : Nat) : AppState :=
  let newMeals := (s.loggedMeals.enum.filter (fun p => p.1 ≠ index)).map Prod.snd
  { s with loggedMeals := newMeals, dailyTotals := recalculateDailyTotals newMeals }

/-- The ingredient stored at `(mealIndex, ingredientIndex)`, when both indices
are in range. -/
def getIngredient (s : AppState) (mealIndex ingredientIndex : Nat) : Option Ingredient :=
  (s.loggedMeals.get? mealIndex).bind fun meal => meal.ingredients.get? ingredientIndex

/-- `resetToOriginalNutrition` (lines 211-221): when the snapshot exists, copy
it back onto `nutrients` (leaving `originalNutrients` itself in place), then
recompute the meal's totals and the daily totals; when no snapshot exists the
handler does nothing.  An out-of-range index would throw (`none`). -/
def resetToOriginalNutrition (s : AppState) (mealIndex ingredientIndex : Nat) :
    Option AppState :=
  match s.loggedMeals.get? mealIndex with
  | none => none
  | some meal =>
    match meal.ingredients.get? ingredientIndex with
    | none => none
    | some ing =>
      match ing.originalNutrients with
      | none => some s
      | some orig =>
        let ing2 := { ing with nutrients := orig }
        let meals1 := s.loggedMeals.set mealIndex
          { meal with ingredients := meal.ingredients.set ingredientIndex ing2 }
        let meals2 := recalculateMealTotals mealIndex meals1
        some { s with loggedMeals := meals2, dailyTotals := recalculateDailyTotals meals2 }

/-- `recalculateIngredientNutrition` (lines 223-265), the rescale operation:
resolve the reference gram weight; when both it and the requested weight are
positive, snapshot `originalNutrients` if unset, scale the snapshot by
`selectedGramWeight / referenceGramWeight` with the source's rounding, store
the result as the ingredient's nutrients, and recompute the meal's totals and
the daily totals; otherwise nothing is mutated and no error is reported.  An
out-of-range index would throw (`none`). -/
def recalculateIngredientNutrition (s : AppState) (mealIndex ingredientIndex : Nat)
    (selectedGramWeight : ℚ) : Option AppState :=
  match s.loggedMeals.get? mealIndex with
  | none => none
  | some meal =>
    match meal.ingredients.get? ingredientIndex with
    | none => none
    | some ing =>
      let originalGramWeight := resolveReferenceGramWeight ing
      if 0 < originalGramWeight ∧ 0 < selectedGramWeight then
        let orig := ing.originalNutrients.getD ing.nutrients
        let multiplier := selectedGramWeight / originalGramWeight
        let ing2 :=
          { ing with originalNutrients := some orig
                     nutrients := rescaledNutrients orig multiplier }
        let meals1 := s.loggedMeals.set mealIndex
          { meal with ingredients := meal.ingredients.set ingredientIndex ing2 }
        let meals2 := recalculateMealTotals mealIndex meals1
        some { s with loggedMeals := meals2, dailyTotals := recalculateDailyTotals meals2 }
      else
        some s

/-- A finite sequence of rescale operations applied at one ingredient
position, propagating a thrown `TypeError` (`none`) if any step throws. -/
def applyRescales (s : AppState) (mealIndex ingredientIndex : Nat) (weights : List ℚ) :
    Option AppState :=
  weights.foldlM (fun st w => recalculateIngredientNutrition st mealIndex ingredientIndex w) s

/-- A nutrient value lies on the post-rescale grid: calories integral,
protein, carbs and fat integer multiples of one tenth. -/
def isQuantized (n : Nutrients) : Prop :=
  (∃ k : ℤ, n.calories = (k : ℚ)) ∧ (∃ k : ℤ, n.protein = (k : ℚ) / 10) ∧
    (∃ k : ℤ, n.carbs = (k : ℚ) / 10) ∧ (∃ k : ℤ, n.fat = (k : ℚ) / 10)

/-- The per-meal aggregation invariant: the stored `total_nutrients` agrees
with the element-wise sum of the current ingredient nutrients. -/
def mealTotalsConsistent (m : Meal) : Prop :=
  m.total_nutrients = sumIngredients m.ingredients

/-- The ingredient record written back by a successful rescale to `w` grams:
the snapshot is the previous snapshot, or the current nutrients when taken for
the first time, and the nutrients are the snapshot scaled by
`w / referenceGramWeight` with the source's rounding. -/
def rescaledIngredient (ing : Ingredient) (w : ℚ) : Ingredient :=
  { ing with
    originalNutrients := some (ing.originalNutrients.getD ing.nutrients)
    nutrients := rescaledNutrients (ing.originalNutrients.getD ing.nutrients)
      (w / resolveReferenceGramWeight ing) }

/-- A meal with its ingredient list replaced and its totals recomputed from
that list. -/
def mealWithIngredients (meal : Meal) (ings : List Ingredient) : Meal :=
  { meal with ingredients := ings, total_nutrients := sumIngredients ings }

/-- An ingredient with the given nutrients and no other data (empty
`serving_info`, no measures, no AI portion). -/
def plainIngredient (nut : Nutrients) : Ingredient :=
  ⟨"ingredient", "", "", nut, none, [], none⟩

/-- A state holding a single one-ingredient meal, as produced by logging one
food item. -/
def singleMealState (ing : Ingredient) : AppState :=
  ⟨[⟨"meal", none, [ing], ing.nutrients⟩], ing.nutrients, ""⟩

/-- The worked example of the spec: an ingredient whose snapshot is
`{calories: 200, protein: 10, carbs: 20, fat: 5}` anchored at 100 g; its
current nutrients are deliberately different so that rescaling visibly reads
the snapshot and not the current values. -/
def exampleIngredient : Ingredient :=
  { name := "rice", brand := "", serving_info := "",
    nutrients := ⟨999, 1, 2, 3⟩,
    originalNutrients := some ⟨200, 10, 20, 5⟩,
    foodMeasures := [],
    ai_selected_portion := some ⟨100, "100 g", none⟩ }

/-- The reference-resolution example of the spec: both an AI-selected portion
of 150 g and a `serving_info` text containing "100g". -/
def priorityIngredient : Ingredient :=
  { name := "oats", brand := "", serving_info := "100g serving",
    nutrients := ⟨100, 1, 1, 1⟩, originalNutrients := none,
    foodMeasures := [], ai_selected_portion := some ⟨150, "cup", none⟩ }

/-- An ingredient whose nutrients are not on the rescaling grid (protein
1/4 g) and whose reference weight is 100 g: rescaling it to 100 g itself is
not the identity. -/
def offGridIngredient : Ingredient :=
  { name := "butter", brand := "", serving_info := "",
    nutrients := ⟨200, 1 / 4, 20, 5⟩, originalNutrients := none,
    foodMeasures := [], ai_selected_portion := some ⟨100, "pat", none⟩ }

/-- A service meal whose stored `total_nutrients` does not match its single
ingredient's nutrients (the ingredient sums to 1/1/1/1 but the stored total
says 2/2/2/2). -/
def inconsistentMeal : Meal :=
  ⟨"mystery", none, [plainIngredient ⟨1, 1, 1, 1⟩], ⟨2, 2, 2, 2⟩⟩

/-- A well-formed service response (both fields present) carrying the
inconsistent meal. -/
def inconsistentResponse : ApiResponse :=
  ⟨some ⟨0, 0, 0, 0⟩, some [inconsistentMeal]⟩

/-- Three concrete meals for the removal example. -/
def breakfastMeal : Meal := ⟨"breakfast", none, [], ⟨100, 10, 20, 5⟩⟩

/-- Second of the three concrete meals for the removal example. -/
def lunchMeal : Meal := ⟨"lunch", none, [], ⟨200, 20, 40, 10⟩⟩

/-- Third of the three concrete meals for the removal example. -/
def dinnerMeal : Meal := ⟨"dinner", none, [], ⟨300, 30, 60, 15⟩⟩

/-- A state with the three concrete meals logged. -/
def threeMealState : AppState :=
  ⟨[breakfastMeal, lunchMeal, dinnerMeal], ⟨600, 60, 120, 30⟩, ""⟩

/-- The one-time-snapshot invariant at one ingredient position: either the
snapshot is still unset and the nutrients are the pristine value `init`, or
the snapshot stores `init`. -/
def snapshotInvariant (init : Nutrients) (s : AppState) (mi ii : Nat) : Prop :=
  ∃ meal ing, s.loggedMeals.get? mi = some meal ∧ meal.ingredients.get? ii = some ing ∧
    ((ing.originalNutrients = none ∧ ing.nutrients = init) ∨ ing.originalNutrients = some init)

/-! ## Helper lemmas -/

theorem jsRound_eq (x : ℚ) : jsRound x = ⌊x + 1 / 2⌋ := by
  rw [jsRound, Rat.floor_def', ← Rat.floor_def]

theorem addNutrients_right_comm (t a b : Nutrients) :
    addNutrients (addNutrients t a) b = addNutrients (addNutrients t b) a := by
  simp only [addNutrients, Nutrients.mk.injEq]
  exact ⟨by ring, by ring, by ring, by ring⟩

instance : RightCommutative fun t (i : Ingredient) => addNutrients t i.nutrients :=
  ⟨fun t a b => addNutrients_right_comm t a.nutrients b.nutrients⟩

theorem recalculateMealTotals_set (meals : List Meal) (mi : Nat) (m : Meal)
    (h : mi < meals.length) :
    recalculateMealTotals mi (meals.set mi m) =
      meals.set mi { m with total_nutrients := sumIngredients m.ingredients } := by
  unfold recalculateMealTotals
  rw [List.get?_set_eq_of_lt _ h]
  exact List.set_set _ _ _ _

theorem rescale_success (s : AppState) (mi ii : Nat) (w : ℚ) (meal : Meal) (ing : Ingredient)
    (h1 : s.loggedMeals.get? mi = some meal) (h2 : meal.ingredients.get? ii = some ing)
    (hr : 0 < resolveReferenceGramWeight ing) (hw : 0 < w) :
    recalculateIngredientNutrition s mi ii w = some
      { s with
        loggedMeals := s.loggedMeals.set mi
          (mealWithIngredients meal (meal.ingredients.set ii (rescaledIngredient ing w)))
        dailyTotals := recalculateDailyTotals (s.loggedMeals.set mi
          (mealWithIngredients meal (meal.ingredients.set ii (rescaledIngredient ing w)))) } := by
  have hlen : mi < s.loggedMeals.length := (List.get?_eq_some.mp h1).1
  simp only [recalculateIngredientNutrition, h1, h2]
  rw [if_pos ⟨hr, hw⟩]
  rw [recalculateMealTotals_set _ _ _ hlen]
  rfl

theorem getIngredient_after_rescale (s : AppState) (mi ii : Nat) (w : ℚ) (meal : Meal)
    (ing : Ingredient) (h1 : s.loggedMeals.get? mi = some meal)
    (h2 : meal.ingredients.get? ii = some ing)
    (hr : 0 < resolveReferenceGramWeight ing) (hw : 0 < w) :
    ∃ s', recalculateIngredientNutrition s mi ii w = some s' ∧
      getIngredient s' mi ii = some (rescaledIngredient ing w) := by
  refine ⟨_, rescale_success s mi ii w meal ing h1 h2 hr hw, ?_⟩
  have hlen : mi < s.loggedMeals.length := (List.get?_eq_some.mp h1).1
  have hlen2 : ii < meal.ingredients.length := (List.get?_eq_some.mp h2).1
  simp only [getIngredient, List.get?_set_eq_of_lt _ hlen, Option.some_bind, mealWithIngredients]
  rw [List.get?_set_eq_of_lt _ hlen2]

theorem rescale_noop (s : AppState) (mi ii : Nat) (w : ℚ) (meal : Meal) (ing : Ingredient)
    (h1 : s.loggedMeals.get? mi = some meal) (h2 : meal.ingredients.get? ii = some ing)
    (hc : ¬(0 < resolveReferenceGramWeight ing ∧ 0 < w)) :
    recalculateIngredientNutrition s mi ii w = some s := by
  simp only [recalculateIngredientNutrition, h1, h2]
  rw [if_neg hc]

theorem rescale_cases (s : AppState) (mi ii : Nat) (w : ℚ) (s' : AppState)
    (h : recalculateIngredientNutrition s mi ii w = some s') :
    s' = s ∨ ∃ meal ing, s.loggedMeals.get? mi = some meal ∧
      meal.ingredients.get? ii = some ing ∧
      (0 < resolveReferenceGramWeight ing ∧ 0 < w) ∧
      s' = { s with
        loggedMeals := s.loggedMeals.set mi
          (mealWithIngredients meal (meal.ingredients.set ii (rescaledIngredient ing w)))
        dailyTotals := recalculateDailyTotals (s.loggedMeals.set mi
          (mealWithIngredients meal (meal.ingredients.set ii (rescaledIngredient ing w)))) } := by
  rcases hg1 : s.loggedMeals.get? mi with - | meal
  · simp only [recalculateIngredientNutrition, hg1] at h
    exact Option.noConfusion h
  rcases hg2 : meal.ingredients.get? ii with - | ing
  · simp only [recalculateIngredientNutrition, hg1, hg2] at h
    exact Option.noConfusion h
  by_cases hc : 0 < resolveReferenceGramWeight ing ∧ 0 < w
  · right
    refine ⟨meal, ing, rfl, hg2, hc, ?_⟩
    have := rescale_success s mi ii w meal ing hg1 hg2 hc.1 hc.2
    rw [this] at h
    exact (Option.some.inj h).symm
  · left
    rw [rescale_noop s mi ii w meal ing hg1 hg2 hc] at h
    exact (Option.some.inj h).symm

theorem reset_success (s : AppState) (mi ii : Nat) (meal : Meal) (ing : Ingredient)
    (orig : Nutrients) (h1 : s.loggedMeals.get? mi = some meal)
    (h2 : meal.ingredients.get? ii = some ing) (ho : ing.originalNutrients = some orig) :
    resetToOriginalNutrition s mi ii = some
      { s with
        loggedMeals := s.loggedMeals.set mi
          (mealWithIngredients meal (meal.ingredients.set ii { ing with nutrients := orig }))
        dailyTotals := recalculateDailyTotals (s.loggedMeals.set mi
          (mealWithIngredients meal (meal.ingredients.set ii { ing with nutrients := orig }))) } := by
  have hlen : mi < s.loggedMeals.length := (List.get?_eq_some.mp h1).1
  simp only [resetToOriginalNutrition, h1, h2, ho]
  rw [recalculateMealTotals_set _ _ _ hlen]
  rfl

theorem reset_cases (s : AppState) (mi ii : Nat) (s' : AppState)
    (h : resetToOriginalNutrition s mi ii = some s') :
    s' = s ∨ ∃ meal ing orig, s.loggedMeals.get? mi = some meal ∧
      meal.ingredients.get? ii = some ing ∧ ing.originalNutrients = some orig ∧
      s' = { s with
        loggedMeals := s.loggedMeals.set mi
          (mealWithIngredients meal (meal.ingredients.set ii { ing with nutrients := orig }))
        dailyTotals := recalculateDailyTotals (s.loggedMeals.set mi
          (mealWithIngredients meal (meal.ingredients.set ii { ing with nutrients := orig }))) } := by
  rcases hg1 : s.loggedMeals.get? mi with - | meal
  · simp only [resetToOriginalNutrition, hg1] at h
    exact Option.noConfusion h
  rcases hg2 : meal.ingredients.get? ii with - | ing
  · simp only [resetToOriginalNutrition, hg1, hg2] at h
    exact Option.noConfusion h
  rcases ho : ing.originalNutrients with - | orig
  · left
    simp only [resetToOriginalNutrition, hg1, hg2, ho] at h
    exact (Option.some.inj h).symm
  · right
    refine ⟨meal, ing, orig, rfl, hg2, ho, ?_⟩
    have := reset_success s mi ii meal ing orig hg1 hg2 ho
    rw [this] at h
    exact (Option.some.inj h).symm

theorem mem_set_cases {α} {l : List α} {i : Nat} {a m : α} (h : m ∈ l.set i a) :
    m = a ∨ m ∈ l := by
  rcases List.mem_iff_get?.mp h with ⟨j, hj⟩
  by_cases hij : i = j
  · subst hij
    rw [List.get?_set_eq] at hj
    rcases hg : l.get? i with - | b
    · rw [hg] at hj; exact absurd hj (by simp)
    · rw [hg] at hj
      simp only [Option.map_some] at hj
      exact Or.inl (Option.some.inj hj).symm
  · rw [List.get?_set_ne _ _ hij] at hj
    exact Or.inr (List.mem_iff_get?.mpr ⟨j, hj⟩)

theorem enumFrom_filter_ne_of_lt {α : Type} (l : List α) : ∀ (n k : Nat), k < n →
    ((l.enumFrom n).filter (fun p => p.1 ≠ k)).map Prod.snd = l := by
  induction l with
  | nil => intro n k _; rfl
  | cons a t ih =>
    intro n k hk
    simp only [List.enumFrom_cons, List.filter_cons]
    rw [if_pos (by simpa using Nat.ne_of_gt hk)]
    simp only [List.map_cons]
    rw [ih (n + 1) k (Nat.lt_succ_of_lt hk)]

theorem enumFrom_filter_ne {α : Type} (l : List α) : ∀ (n i : Nat),
    ((l.enumFrom n).filter (fun p => p.1 ≠ n + i)).map Prod.snd =
      l.take i ++ l.drop (i + 1) := by
  induction l with
  | nil => intro n i; simp
  | cons a t ih =>
    intro n i
    cases i with
    | zero =>
      simp only [List.enumFrom_cons, List.filter_cons]
      rw [if_neg (by simp)]
      rw [enumFrom_filter_ne_of_lt t (n + 1) (n + 0) (by omega)]
      simp
    | succ j =>
      simp only [List.enumFrom_cons, List.filter_cons]
      rw [if_pos (by simp)]
      simp only [List.map_cons, List.take_succ_cons, List.drop_succ_cons]
      have hn : n + (j + 1) = (n + 1) + j := by omega
      rw [hn, ih (n + 1) j, List.cons_append]

theorem removeMeal_loggedMeals (s : AppState) (i : Nat) :
    (removeMeal s i).loggedMeals = s.loggedMeals.take i ++ s.loggedMeals.drop (i + 1) := by
  have h := enumFrom_filter_ne s.loggedMeals 0 i
  simp only [Nat.zero_add] at h
  exact h

theorem isQuantized_rescaledNutrients (o : Nutrients) (m : ℚ) :
    isQuantized (rescaledNutrients o m) :=
  ⟨⟨jsRound (o.calories * m), rfl⟩, ⟨jsRound (o.protein * m * 10), rfl⟩,
    ⟨jsRound (o.carbs * m * 10), rfl⟩, ⟨jsRound (o.fat * m * 10), rfl⟩⟩

/-! ## Claim theorems -/

/-- **C9**: `sumIngredients` is order-independent — any permutation of the
ingredient list yields the same element-wise sum — and the empty list sums to
the all-zero nutrient vector. -/
theorem c9_sum_order_independent :
    (∀ l₁ l₂ : List Ingredient, l₁.Perm l₂ → sumIngredients l₁ = sumIngredients l₂) ∧
      sumIngredients [] = zeroNutrients := by
  refine ⟨fun l₁ l₂ hp => ?_, rfl⟩
  simpa only [sumIngredients] using hp.foldl_eq zeroNutrients

theorem c9_sum_order_independent_witness :
    sumIngredients [plainIngredient ⟨1, 2, 3, 4⟩, plainIngredient ⟨5, 6, 7, 8⟩] =
        sumIngredients [plainIngredient ⟨5, 6, 7, 8⟩, plainIngredient ⟨1, 2, 3, 4⟩] ∧
      sumIngredients [] = zeroNutrients :=
  ⟨c9_sum_order_independent.1 _ _ (List.Perm.swap _ _ _), c9_sum_order_independent.2⟩

/-- **C3**: the reference gram weight is `ai_selected_portion.gramWeight` when
present and non-zero; otherwise the first digits-then-`'g'` number extracted
from `serving_info`; otherwise, when that extraction yields zero or no match,
`foodMeasures[0].gramWeight` (falling back to its alternate spelling
`gram_weight`); and an ingredient with an AI portion of 150 g and
`serving_info = "100g serving"` resolves to 150. -/
theorem c3_reference_priority :
    (∀ ing p, ing.ai_selected_portion = some p → p.gramWeight ≠ 0 →
        resolveReferenceGramWeight ing = p.gramWeight) ∧
      (∀ ing, (∀ p, ing.ai_selected_portion = some p → p.gramWeight = 0) →
        extractServingGrams ing.serving_info ≠ 0 →
        resolveReferenceGramWeight ing = extractServingGrams ing.serving_info) ∧
      (∀ ing m rest, (∀ p, ing.ai_selected_portion = some p → p.gramWeight = 0) →
        extractServingGrams ing.serving_info = 0 →
        ing.foodMeasures = m :: rest →
        resolveReferenceGramWeight ing = jsOrNum m.gramWeight (jsOrNum m.gram_weight 0)) ∧
      resolveReferenceGramWeight priorityIngredient = 150 := by
  refine ⟨fun ing p hai hne => ?_, fun ing hai hne => ?_, fun ing m rest hai hz hfm => ?_,
    by decide⟩
  · simp [resolveReferenceGramWeight, hai, hne]
  · rcases h : ing.ai_selected_portion with - | p
    · simp [resolveReferenceGramWeight, h, hne]
    · simp [resolveReferenceGramWeight, h, hai p h, hne]
  · rcases h : ing.ai_selected_portion with - | p
    · simp [resolveReferenceGramWeight, h, hz, hfm]
    · simp [resolveReferenceGramWeight, h, hai p h, hz, hfm]

theorem c3_reference_priority_witness :
    resolveReferenceGramWeight priorityIngredient =
      (AiSelectedPortion.mk 150 "cup" none).gramWeight :=
  c3_reference_priority.1 priorityIngredient (AiSelectedPortion.mk 150 "cup" none) rfl
    (by decide)

/-- **C1**: when the resolved reference weight and the requested weight `w`
are positive, rescaling stores the nutrients computed from the
`originalNutrients` snapshot (never from the current, possibly already
rescaled, nutrients) scaled by `w / reference`, with calories rounded to the
nearest integer and protein, carbs and fat to the nearest tenth; in
particular a snapshot of `{calories: 200, protein: 10, carbs: 20, fat: 5}` at
reference 100 g rescaled to 150 g yields
`{calories: 300, protein: 15, carbs: 30, fat: 7.5}` even though the current
nutrients differ from the snapshot. -/
theorem c1_rescale_from_snapshot :
    (∀ s mi ii w meal ing o, s.loggedMeals.get? mi = some meal →
      meal.ingredients.get? ii = some ing →
      ing.originalNutrients = some o →
      0 < resolveReferenceGramWeight ing → 0 < w →
      ∃ s', recalculateIngredientNutrition s mi ii w = some s' ∧
        getIngredient s' mi ii = some
          { ing with originalNutrients := some o
                     nutrients := rescaledNutrients o (w / resolveReferenceGramWeight ing) }) ∧
      ∃ s', recalculateIngredientNutrition (singleMealState exampleIngredient) 0 0 150 =
          some s' ∧
        ∃ ing', getIngredient s' 0 0 = some ing' ∧
          ing'.nutrients = ⟨300, 15, 30, 15 / 2⟩ := by
  constructor
  · intro s mi ii w meal ing o h1 h2 ho hr hw
    obtain ⟨s', hs', hget⟩ := getIngredient_after_rescale s mi ii w meal ing h1 h2 hr hw
    refine ⟨s', hs', ?_⟩
    rw [hget]
    simp [rescaledIngredient, ho]
  · obtain ⟨s', hs', hget⟩ := getIngredient_after_rescale (singleMealState exampleIngredient)
      0 0 150 ⟨"meal", none, [exampleIngredient], exampleIngredient.nutrients⟩
      exampleIngredient rfl rfl (by decide) (by decide)
    refine ⟨s', hs', _, hget, ?_⟩
    have hres : resolveReferenceGramWeight exampleIngredient = 100 := by decide
    have horig : exampleIngredient.originalNutrients.getD exampleIngredient.nutrients
        = ⟨200, 10, 20, 5⟩ := by decide
    simp only [rescaledIngredient, hres, horig]
    simp only [rescaledNutrients, jsRound_eq, Nutrients.mk.injEq]
    norm_num

theorem c1_rescale_from_snapshot_witness :
    ∃ s', recalculateIngredientNutrition (singleMealState exampleIngredient) 0 0 150 =
        some s' ∧
      getIngredient s' 0 0 = some
        { exampleIngredient with
          originalNutrients := some ⟨200, 10, 20, 5⟩
          nutrients := rescaledNutrients ⟨200, 10, 20, 5⟩
            (150 / resolveReferenceGramWeight exampleIngredient) } :=
  c1_rescale_from_snapshot.1 _ 0 0 150 _ exampleIngredient ⟨200, 10, 20, 5⟩ rfl rfl rfl
    (by decide) (by decide)

/-- **C4**: when the requested weight is not positive or the resolved
reference weight is zero, the rescale handler mutates nothing — the state
(ingredient nutrients and snapshot, meal totals, daily totals, error message)
is returned unchanged and no error is reported. -/
theorem c4_rescale_silent_noop :
    ∀ s mi ii w meal ing, s.loggedMeals.get? mi = some meal →
      meal.ingredients.get? ii = some ing →
      (w ≤ 0 ∨ resolveReferenceGramWeight ing = 0) →
      recalculateIngredientNutrition s mi ii w = some s := by
  intro s mi ii w meal ing h1 h2 h3
  simp only [recalculateIngredientNutrition, h1, h2]
  rw [if_neg]
  rintro ⟨hr, hw⟩
  rcases h3 with h | h
  · exact absurd hw (not_lt.mpr h)
  · rw [h] at hr; exact lt_irrefl 0 hr

theorem c4_rescale_silent_noop_witness :
    recalculateIngredientNutrition (singleMealState (plainIngredient ⟨200, 10, 20, 5⟩)) 0 0 0 =
      some (singleMealState (plainIngredient ⟨200, 10, 20, 5⟩)) :=
  c4_rescale_silent_noop _ 0 0 0 _ _ rfl rfl (Or.inl le_rfl)

/-- **C7**: a parsed service response missing `dailyTotals` or missing
`loggedMeals` makes `logFood` raise the invalid-response error while the meal
list and the daily totals stay exactly as they were (no partial append). -/
theorem c7_invalid_response_no_append :
    ∀ s data, data.dailyTotals = none ∨ data.loggedMeals = none →
      (logFood s data).loggedMeals = s.loggedMeals ∧
        (logFood s data).dailyTotals = s.dailyTotals ∧
        (logFood s data).error = invalidResponseMessage := by
  intro s data h
  rcases data with ⟨dt, lm⟩
  rcases h with h | h
  · subst h; cases lm <;> simp [logFood]
  · subst h; cases dt <;> simp [logFood]

theorem c7_invalid_response_no_append_witness :
    (logFood threeMealState ⟨none, some [inconsistentMeal]⟩).loggedMeals =
        threeMealState.loggedMeals ∧
      (logFood threeMealState ⟨none, some [inconsistentMeal]⟩).dailyTotals =
        threeMealState.dailyTotals ∧
      (logFood threeMealState ⟨none, some [inconsistentMeal]⟩).error =
        invalidResponseMessage :=
  c7_invalid_response_no_append threeMealState ⟨none, some [inconsistentMeal]⟩ (Or.inl rfl)

/-- **C8**: removing an in-range index `i` deletes exactly the meal at
position `i`, keeps every other meal in its original relative order, and
recomputes the daily totals from the remaining meals; removing index 1 of the
concrete three-meal list leaves the other two meals in order with daily
totals equal to their summed `total_nutrients`. -/
theorem c8_remove_meal :
    (∀ s i, i < s.loggedMeals.length →
      (removeMeal s i).loggedMeals = s.loggedMeals.take i ++ s.loggedMeals.drop (i + 1) ∧
        (removeMeal s i).dailyTotals =
          recalculateDailyTotals ((removeMeal s i).loggedMeals)) ∧
      (removeMeal threeMealState 1).loggedMeals = [breakfastMeal, dinnerMeal] ∧
      (removeMeal threeMealState 1).dailyTotals = ⟨400, 40, 80, 20⟩ := by
  have hl : (removeMeal threeMealState 1).loggedMeals = [breakfastMeal, dinnerMeal] := by
    decide
  refine ⟨fun s i _ => ⟨removeMeal_loggedMeals s i, rfl⟩, hl, ?_⟩
  calc (removeMeal threeMealState 1).dailyTotals
      = recalculateDailyTotals ((removeMeal threeMealState 1).loggedMeals) := rfl
    _ = recalculateDailyTotals [breakfastMeal, dinnerMeal] := by rw [hl]
    _ = ⟨400, 40, 80, 20⟩ := by
        simp only [recalculateDailyTotals, List.foldl_cons, List.foldl_nil, addNutrients,
          zeroNutrients, breakfastMeal, dinnerMeal, Nutrients.mk.injEq]
        norm_num

/-- **C6**: after a successful append and after a removal the stored daily
totals equal the locally recomputed element-wise sum of all logged meals'
`total_nutrients`; a rescale or reset either leaves the state untouched or
re-establishes the same equation; and the value carried by the service's
`dailyTotals` field has no effect on the resulting state. -/
theorem c6_daily_totals_recompute :
    (∀ s d batch, (logFood s ⟨some d, some batch⟩).dailyTotals =
        recalculateDailyTotals ((logFood s ⟨some d, some batch⟩).loggedMeals)) ∧
      (∀ s d d' batch, logFood s ⟨some d, some batch⟩ = logFood s ⟨some d', some batch⟩) ∧
      (∀ s i, (removeMeal s i).dailyTotals =
        recalculateDailyTotals ((removeMeal s i).loggedMeals)) ∧
      (∀ s mi ii w s', recalculateIngredientNutrition s mi ii w = some s' →
        s' = s ∨ s'.dailyTotals = recalculateDailyTotals s'.loggedMeals) ∧
      (∀ s mi ii s', resetToOriginalNutrition s mi ii = some s' →
        s' = s ∨ s'.dailyTotals = recalculateDailyTotals s'.loggedMeals) := by
  refine ⟨fun s d batch => rfl, fun s d d' batch => rfl, fun s i => rfl, ?_, ?_⟩
  · intro s mi ii w s' h
    rcases rescale_cases s mi ii w s' h with hcase | ⟨meal, ing, -, -, -, rfl⟩
    · exact Or.inl hcase
    · exact Or.inr rfl
  · intro s mi ii s' h
    rcases reset_cases s mi ii s' h with hcase | ⟨meal, ing, orig, -, -, -, rfl⟩
    · exact Or.inl hcase
    · exact Or.inr rfl

theorem c6_daily_totals_recompute_witness :
    (singleMealState (plainIngredient ⟨1, 2, 3, 4⟩) =
          singleMealState (plainIngredient ⟨1, 2, 3, 4⟩) ∨
        (singleMealState (plainIngredient ⟨1, 2, 3, 4⟩)).dailyTotals =
          recalculateDailyTotals
            (singleMealState (plainIngredient ⟨1, 2, 3, 4⟩)).loggedMeals) ∧
      (singleMealState (plainIngredient ⟨1, 2, 3, 4⟩) =
          singleMealState (plainIngredient ⟨1, 2, 3, 4⟩) ∨
        (singleMealState (plainIngredient ⟨1, 2, 3, 4⟩)).dailyTotals =
          recalculateDailyTotals
            (singleMealState (plainIngredient ⟨1, 2, 3, 4⟩)).loggedMeals) :=
  ⟨c6_daily_totals_recompute.2.2.2.1 _ 0 0 0 _ (by decide),
    c6_daily_totals_recompute.2.2.2.2 _ 0 0 _ (by decide)⟩

theorem c8_remove_meal_witness :
    (removeMeal threeMealState 1).loggedMeals =
        threeMealState.loggedMeals.take 1 ++ threeMealState.loggedMeals.drop 2 ∧
      (removeMeal threeMealState 1).dailyTotals =
        recalculateDailyTotals ((removeMeal threeMealState 1).loggedMeals) :=
  c8_remove_meal.1 threeMealState 1 (by decide)

/-- **C5, counterexample**: the claim fails for meals appended from the AI
service.  `logFood` trusts the batch's `total_nutrients` as data and never
recomputes them, so appending a response whose meal totals disagree with its
ingredient sum yields a reachable state violating the invariant. -/
theorem c5_totals_invariant_counterexample :
    ∃ m, m ∈ (logFood initialState inconsistentResponse).loggedMeals ∧
      ¬ mealTotalsConsistent m := by
  refine ⟨inconsistentMeal, ?_, ?_⟩
  · simp [logFood, inconsistentResponse, initialState]
  · simp only [mealTotalsConsistent, inconsistentMeal, sumIngredients, plainIngredient,
      List.foldl_cons, List.foldl_nil, addNutrients, zeroNutrients, Nutrients.mk.injEq,
      not_and]
    norm_num

/-- **C5, amended**: in any state whose meals all satisfy
`total_nutrients = sum of ingredient nutrients`, every operation preserves
the invariant — unconditionally for removal, rescale and reset (the mutated
meal's totals are recomputed), and for an append provided the appended batch
itself satisfies it (appended meals keep their service-provided totals). -/
theorem c5_totals_invariant_amended :
    ∀ s, (∀ m ∈ s.loggedMeals, mealTotalsConsistent m) →
      (∀ i m, m ∈ (removeMeal s i).loggedMeals → mealTotalsConsistent m) ∧
        (∀ data m, (∀ batch, data.loggedMeals = some batch →
            ∀ mb ∈ batch, mealTotalsConsistent mb) →
          m ∈ (logFood s data).loggedMeals → mealTotalsConsistent m) ∧
        (∀ mi ii w s', recalculateIngredientNutrition s mi ii w = some s' →
          ∀ m ∈ s'.loggedMeals, mealTotalsConsistent m) ∧
        (∀ mi ii s', resetToOriginalNutrition s mi ii = some s' →
          ∀ m ∈ s'.loggedMeals, mealTotalsConsistent m) := by
  intro s hs
  refine ⟨?_, ?_, ?_, ?_⟩
  · intro i m hm
    rw [removeMeal_loggedMeals] at hm
    rcases List.mem_append.mp hm with h | h
    · exact hs m (List.take_subset _ _ h)
    · exact hs m (List.drop_subset _ _ h)
  · intro data m hbatch hm
    rcases data with ⟨dt, lm⟩
    cases dt with
    | none => cases lm <;> (simp only [logFood] at hm; exact hs m hm)
    | some d =>
      cases lm with
      | none => simp only [logFood] at hm; exact hs m hm
      | some batch =>
        simp only [logFood] at hm
        rcases List.mem_append.mp hm with h | h
        · exact hs m h
        · exact hbatch batch rfl m h
  · intro mi ii w s' h m hm
    rcases rescale_cases s mi ii w s' h with rfl | ⟨meal, ing, h1, h2, -, rfl⟩
    · exact hs m hm
    · rcases mem_set_cases hm with rfl | hmem
      · simp [mealTotalsConsistent, mealWithIngredients]
      · exact hs m hmem
  · intro mi ii s' h m hm
    rcases reset_cases s mi ii s' h with rfl | ⟨meal, ing, orig, h1, h2, ho, rfl⟩
    · exact hs m hm
    · rcases mem_set_cases hm with rfl | hmem
      · simp [mealTotalsConsistent, mealWithIngredients]
      · exact hs m hmem

theorem c5_totals_invariant_amended_witness :
    mealTotalsConsistent ⟨"meal", none, [plainIngredient ⟨1, 2, 3, 4⟩], ⟨1, 2, 3, 4⟩⟩ :=
  (c5_totals_invariant_amended (singleMealState (plainIngredient ⟨1, 2, 3, 4⟩))
      (by simp [singleMealState, plainIngredient, mealTotalsConsistent, sumIngredients,
        addNutrients, zeroNutrients])).1
    1 ⟨"meal", none, [plainIngredient ⟨1, 2, 3, 4⟩], ⟨1, 2, 3, 4⟩⟩ (by decide)

theorem snapshotInvariant_rescale (init : Nutrients) (s : AppState) (mi ii : Nat) (w : ℚ)
    (s' : AppState) (h : recalculateIngredientNutrition s mi ii w = some s')
    (hi : snapshotInvariant init s mi ii) : snapshotInvariant init s' mi ii := by
  obtain ⟨meal, ing, h1, h2, hcase⟩ := hi
  rcases rescale_cases s mi ii w s' h with rfl | ⟨meal', ing', h1', h2', hc, rfl⟩
  · exact ⟨meal, ing, h1, h2, hcase⟩
  · have hme : meal' = meal := Option.some.inj (h1'.symm.trans h1)
    subst hme
    have hin : ing' = ing := Option.some.inj (h2'.symm.trans h2)
    subst hin
    have hlen : mi < s.loggedMeals.length := (List.get?_eq_some.mp h1').1
    have hlen2 : ii < meal'.ingredients.length := (List.get?_eq_some.mp h2').1
    refine ⟨_, rescaledIngredient ing' w, List.get?_set_eq_of_lt _ hlen, ?_, Or.inr ?_⟩
    · show (mealWithIngredients meal' _).ingredients.get? ii = _
      simp only [mealWithIngredients]
      exact List.get?_set_eq_of_lt _ hlen2
    · rcases hcase with ⟨hn, he⟩ | hsome
      · simp [rescaledIngredient, hn, he]
      · simp [rescaledIngredient, hsome]

theorem snapshotInvariant_applyRescales (init : Nutrients) (mi ii : Nat) :
    ∀ (ws : List ℚ) (s s' : AppState), applyRescales s mi ii ws = some s' →
      snapshotInvariant init s mi ii → snapshotInvariant init s' mi ii := by
  intro ws
  induction ws with
  | nil =>
    intro s s' h hi
    simp only [applyRescales, List.foldlM_nil] at h
    exact (Option.some.inj h) ▸ hi
  | cons w ws ih =>
    intro s s' h hi
    simp only [applyRescales, List.foldlM_cons] at h
    rcases hstep : recalculateIngredientNutrition s mi ii w with - | s1
    · rw [hstep] at h; exact Option.noConfusion h
    · rw [hstep] at h
      simp only [Option.bind_eq_bind, Option.some_bind] at h
      exact ih s1 s' h (snapshotInvariant_rescale init s mi ii w s1 hstep hi)

theorem reset_after_snapshotInvariant (init : Nutrients) (s : AppState) (mi ii : Nat)
    (hi : snapshotInvariant init s mi ii) :
    ∃ s'' ing'', resetToOriginalNutrition s mi ii = some s'' ∧
      getIngredient s'' mi ii = some ing'' ∧ ing''.nutrients = init := by
  obtain ⟨meal, ing, h1, h2, hcase⟩ := hi
  rcases hcase with ⟨hn, he⟩ | hsome
  · refine ⟨s, ing, ?_, ?_, he⟩
    · simp only [resetToOriginalNutrition, h1, h2, hn]
    · unfold getIngredient
      rw [h1, Option.some_bind, h2]
  · have hlen : mi < s.loggedMeals.length := (List.get?_eq_some.mp h1).1
    have hlen2 : ii < meal.ingredients.length := (List.get?_eq_some.mp h2).1
    refine ⟨_, { ing with nutrients := init },
      reset_success s mi ii meal ing init h1 h2 hsome, ?_, rfl⟩
    simp only [getIngredient, List.get?_set_eq_of_lt _ hlen, Option.some_bind,
      mealWithIngredients]
    exact List.get?_set_eq_of_lt _ hlen2

/-- **C2**: starting from a never-rescaled ingredient, any sequence of
rescales ending in `rescale(W)` followed by `reset` restores the nutrients
bit-for-bit to their pre-first-rescale value; and once `originalNutrients`
holds a snapshot, no later rescale ever overwrites it. -/
theorem c2_rescale_reset_round_trip :
    (∀ s mi ii meal ing, s.loggedMeals.get? mi = some meal →
      meal.ingredients.get? ii = some ing → ing.originalNutrients = none →
      ∀ earlier w s', applyRescales s mi ii (earlier ++ [w]) = some s' →
        ∃ s'' ing'', resetToOriginalNutrition s' mi ii = some s'' ∧
          getIngredient s'' mi ii = some ing'' ∧ ing''.nutrients = ing.nutrients) ∧
      ∀ s mi ii ing o w s', getIngredient s mi ii = some ing →
        ing.originalNutrients = some o →
        recalculateIngredientNutrition s mi ii w = some s' →
        ∃ ing', getIngredient s' mi ii = some ing' ∧ ing'.originalNutrients = some o := by
  constructor
  · intro s mi ii meal ing h1 h2 hn earlier w s' happ
    exact reset_after_snapshotInvariant ing.nutrients s' mi ii
      (snapshotInvariant_applyRescales ing.nutrients mi ii (earlier ++ [w]) s s' happ
        ⟨meal, ing, h1, h2, Or.inl ⟨hn, rfl⟩⟩)
  · intro s mi ii ing o w s' hget ho h
    rcases hg1 : s.loggedMeals.get? mi with - | meal
    · rw [getIngredient, hg1] at hget; exact Option.noConfusion hget
    have h2 : meal.ingredients.get? ii = some ing := by
      unfold getIngredient at hget
      rw [hg1, Option.some_bind] at hget
      exact hget
    rcases rescale_cases s mi ii w s' h with rfl | ⟨meal', ing', h1', h2', hc, rfl⟩
    · exact ⟨ing, hget, ho⟩
    · have hme : meal' = meal := Option.some.inj (h1'.symm.trans hg1)
      subst hme
      have hin : ing' = ing := Option.some.inj (h2'.symm.trans h2)
      subst hin
      have hlen : mi < s.loggedMeals.length := (List.get?_eq_some.mp h1').1
      have hlen2 : ii < meal'.ingredients.length := (List.get?_eq_some.mp h2').1
      refine ⟨rescaledIngredient ing' w, ?_, ?_⟩
      · simp only [getIngredient, List.get?_set_eq_of_lt _ hlen, Option.some_bind,
          mealWithIngredients]
        exact List.get?_set_eq_of_lt _ hlen2
      · simp [rescaledIngredient, ho]

theorem c2_rescale_reset_round_trip_witness :
    (∃ s'' ing'', resetToOriginalNutrition (singleMealState (plainIngredient ⟨1, 2, 3, 4⟩)) 0 0 =
        some s'' ∧ getIngredient s'' 0 0 = some ing'' ∧
        ing''.nutrients = (plainIngredient ⟨1, 2, 3, 4⟩).nutrients) ∧
      ∃ ing', getIngredient (singleMealState exampleIngredient) 0 0 = some ing' ∧
        ing'.originalNutrients = some ⟨200, 10, 20, 5⟩ :=
  ⟨c2_rescale_reset_round_trip.1 (singleMealState (plainIngredient ⟨1, 2, 3, 4⟩)) 0 0 _
      (plainIngredient ⟨1, 2, 3, 4⟩) rfl rfl rfl [] 0
      (singleMealState (plainIngredient ⟨1, 2, 3, 4⟩)) (by decide),
    c2_rescale_reset_round_trip.2 (singleMealState exampleIngredient) 0 0 exampleIngredient
      ⟨200, 10, 20, 5⟩ 0 (singleMealState exampleIngredient) rfl rfl (by decide)⟩

/-- **C10**: every successful rescale leaves calories integral and protein,
carbs and fat integer multiples of one tenth; consequently, for the concrete
ingredient whose original protein is 1/4 g, rescaling to the resolved
reference weight itself (multiplier 1) changes the nutrients — rescaling by
the reference weight is not the identity. -/
theorem c10_quantized_grid_not_identity :
    (∀ s mi ii w meal ing, s.loggedMeals.get? mi = some meal →
      meal.ingredients.get? ii = some ing →
      0 < resolveReferenceGramWeight ing → 0 < w →
      ∃ s' ing', recalculateIngredientNutrition s mi ii w = some s' ∧
        getIngredient s' mi ii = some ing' ∧ isQuantized ing'.nutrients) ∧
      ∃ s' ing', recalculateIngredientNutrition (singleMealState offGridIngredient) 0 0
          (resolveReferenceGramWeight offGridIngredient) = some s' ∧
        getIngredient s' 0 0 = some ing' ∧ ing'.nutrients ≠ offGridIngredient.nutrients := by
  constructor
  · intro s mi ii w meal ing h1 h2 hr hw
    obtain ⟨s', hs', hget⟩ := getIngredient_after_rescale s mi ii w meal ing h1 h2 hr hw
    exact ⟨s', _, hs', hget, isQuantized_rescaledNutrients _ _⟩
  · obtain ⟨s', hs', hget⟩ := getIngredient_after_rescale (singleMealState offGridIngredient)
      0 0 (resolveReferenceGramWeight offGridIngredient)
      ⟨"meal", none, [offGridIngredient], offGridIngredient.nutrients⟩ offGridIngredient
      rfl rfl (by decide) (by decide)
    refine ⟨s', _, hs', hget, ?_⟩
    have hres : resolveReferenceGramWeight offGridIngredient = 100 := by decide
    have horig : offGridIngredient.originalNutrients.getD offGridIngredient.nutrients
        = ⟨200, 1 / 4, 20, 5⟩ := rfl
    have hval : (rescaledIngredient offGridIngredient
        (resolveReferenceGramWeight offGridIngredient)).nutrients = ⟨200, 3 / 10, 20, 5⟩ := by
      simp only [rescaledIngredient, hres, horig]
      simp only [rescaledNutrients, jsRound_eq, Nutrients.mk.injEq]
      norm_num
    rw [hval]
    intro hEq
    have : (3 : ℚ) / 10 = 1 / 4 := congrArg Nutrients.protein hEq
    norm_num at this

theorem c10_quantized_grid_not_identity_witness :
    ∃ s' ing', recalculateIngredientNutrition (singleMealState exampleIngredient) 0 0 42 =
        some s' ∧ getIngredient s' 0 0 = some ing' ∧ isQuantized ing'.nutrients :=
  c10_quantized_grid_not_identity.1 _ 0 0 42 _ exampleIngredient rfl rfl (by decide)
    (by decide)

end CalorieTracker
